import Mathlib

/-!
Shallow embedding of the Wapi_bot workflow-orchestration core
(backend/src): the confidence-gated merge node, the resume router,
the name-extraction tiers, the dual-tier checkpointer and the
vehicle-selection node, together with proofs of the specified
properties.

Python values are modelled by `Val` (with `vnull` playing the role of
`None`); Python dicts are association lists without duplicate keys;
floats are modelled by rationals (only comparison, `max` and a few
literals such as 0.70 are needed, on which rationals agree with
IEEE doubles).
-/

inductive Val where
  | vnull : Val
  | vbool : Bool → Val
  | vnum : ℚ → Val
  | vstr : String → Val
  | vlist : List Val → Val
  | vdict : List (String × Val) → Val

abbrev Dict := List (String × Val)

/-- First-occurrence lookup in an association list (Python `d[k]` / `d.get(k)`). -/
def dlookup {α : Type} (k : String) : List (String × α) → Option α
  | [] => none
  | e :: rest => if e.1 = k then some e.2 else dlookup k rest

/-- Python `d[k] = v`: replace the value at an existing key in place,
otherwise append the new entry at the end. -/
def dset {α : Type} (d : List (String × α)) (k : String) (v : α) : List (String × α) :=
  if (dlookup k d).isSome then d.map (fun e => if e.1 = k then (k, v) else e)
  else d ++ [(k, v)]

/-- Python `{**a, **b}`: entries of `b` assigned over `a` left to right. -/
def pyUnion {α : Type} (a b : List (String × α)) : List (String × α) :=
  b.foldl (fun acc e => dset acc e.1 e.2) a

/-- Python truthiness (`bool(v)` is `False`). -/
def falsy : Val → Bool
  | .vnull => true
  | .vbool b => !b
  | .vnum q => q = 0
  | .vstr s => s = ""
  | .vlist l => l.isEmpty
  | .vdict d => d.isEmpty

def truthy (v : Val) : Bool := !falsy v

/-- Numeric coercion used by Python comparison and `max` (floats, ints and
bools are comparable; anything else raises `TypeError`, modelled as `none`). -/
def asNum : Val → Option ℚ
  | .vnum q => some q
  | .vbool b => some (if b then 1 else 0)
  | _ => none

/-- Python `field_path.split(".")` on the underlying characters: split at
every dot, keeping empty segments (`"a..b"` gives `["a", "", "b"]`). -/
def splitDotChars : List Char → List (List Char)
  | [] => [[]]
  | c :: cs =>
      if c = '.' then [] :: splitDotChars cs
      else
        match splitDotChars cs with
        | [] => [[c]]
        | w :: ws => (c :: w) :: ws

/-- Python `field_path.split(".")`. -/
def splitDot (s : String) : List String :=
  (splitDotChars s.toList).map (fun l => String.mk l)

/-- Traversal for `get_nested_field` (merge.py): follow the parts of the
dot path; a missing key or a non-dict intermediate yields Python `None`. -/
def get_nested_parts : Val → List String → Val
  | current, [] => current
  | .vdict d, p :: ps =>
      match dlookup p d with
      | some v => get_nested_parts v ps
      | none => .vnull
  | _, _ :: _ => .vnull

/-- `get_nested_field` of merge.py: dot-path read returning `None` on a
missing path. -/
def get_nested_field (state : Dict) (field_path : String) : Val :=
  get_nested_parts (.vdict state) (splitDot field_path)

/-- Traversal for `set_nested_field` (merge.py): materialize missing or
`None` intermediates as fresh dicts; a non-dict, non-`None` intermediate
makes the Python code raise (modelled as `none`). -/
def set_nested_parts : Dict → List String → Val → Option Dict
  | _, [], _ => none
  | d, [k], v => some (dset d k v)
  | d, k :: k2 :: ks, v =>
      match dlookup k d with
      | some (.vdict sub) =>
          (set_nested_parts sub (k2 :: ks) v).map (fun sub2 => dset d k (.vdict sub2))
      | some .vnull =>
          (set_nested_parts [] (k2 :: ks) v).map (fun sub2 => dset d k (.vdict sub2))
      | none =>
          (set_nested_parts [] (k2 :: ks) v).map (fun sub2 => dset d k (.vdict sub2))
      | some _ => none

/-- `set_nested_field` of merge.py: dot-path write materializing missing
intermediate mappings. -/
def set_nested_field (state : Dict) (field_path : String) (value : Val) : Option Dict :=
  set_nested_parts state (splitDot field_path) value

namespace merge

/-- `default_merge_strategy` of merge.py: accept the new data only when its
confidence is strictly higher. -/
def default_merge_strategy (existing new : Dict)
    (existing_confidence new_confidence : ℚ) : Dict :=
  if new_confidence > existing_confidence then new else existing

/-- A custom merge function; `none` models the function raising. -/
abbrev MergeFn := Dict → Dict → Val → ℚ → Option Dict

/-- `node` of merge.py (the atomic merge node): confidence-gated merge of
`new_data` into the dict held at `data_path` of `state`.  A result of
`none` models an exception escaping the node (possible only on ill-typed
states or paths). -/
def node (state : Dict) (new_data : Dict) (data_path : String) (new_confidence : ℚ)
    (merge_fn : Option MergeFn) (confidence_field : String) (turn : Option ℚ) :
    Option Dict :=
  let addTurn : Dict → Dict := fun m =>
    match turn with
    | some t => dset m "turn_extracted" (.vnum t)
    | none => m
  let existing_data := get_nested_field state data_path
  if falsy existing_data then
    let merged := dset new_data confidence_field (.vnum new_confidence)
    set_nested_field state data_path (.vdict (addTurn merged))
  else
    match existing_data with
    | .vdict ed =>
        let existing_confidence := (dlookup confidence_field ed).getD (.vnum 0)
        let tryDefault : Option Dict :=
          match asNum existing_confidence with
          | some ec =>
              if new_confidence > ec then
                let merged := dset (pyUnion ed new_data) confidence_field (.vnum new_confidence)
                set_nested_field state data_path (.vdict (addTurn merged))
              else some state
          | none => none
        match merge_fn with
        | some f =>
            match f ed new_data existing_confidence new_confidence with
            | some m =>
                match asNum existing_confidence with
                | some ec =>
                    let merged := dset m confidence_field (.vnum (max ec new_confidence))
                    match set_nested_field state data_path (.vdict (addTurn merged)) with
                    | some s2 => some s2
                    | none => tryDefault
                | none => tryDefault
            | none => tryDefault
        | none => tryDefault
    | _ => none

/-- A sequence of default-strategy merge calls into the same path. -/
def mergeSeq (state : Dict) (data_path : String) (calls : List (Dict × ℚ)) : Option Dict :=
  calls.foldl
    (fun acc pc => acc.bind (fun s => node s pc.1 data_path pc.2 none "confidence" none))
    (some state)

end merge

/-! ### Association-list lemmas -/

theorem dlookup_map_replace {α : Type} (d : List (String × α)) (k : String) (v : α) :
    dlookup k (d.map (fun e => if e.1 = k then (k, v) else e)) =
      if (dlookup k d).isSome then some v else none := by
  induction d with
  | nil => simp [dlookup]
  | cons e rest ih =>
      by_cases h : e.1 = k
      · simp [dlookup, h]
      · simp [dlookup, h, ih]

theorem dlookup_map_replace_ne {α : Type} (d : List (String × α)) (k k2 : String) (v : α)
    (h : k ≠ k2) :
    dlookup k (d.map (fun e => if e.1 = k2 then (k2, v) else e)) = dlookup k d := by
  induction d with
  | nil => simp [dlookup]
  | cons e rest ih =>
      by_cases he : e.1 = k2
      · have h2 : ¬ (k2 = k) := fun hh => h hh.symm
        simp [dlookup, he, h2, ih]
      · by_cases hk : e.1 = k
        · simp [dlookup, he, hk, h]
        · simp [dlookup, he, hk, ih]

theorem dlookup_append_singleton {α : Type} (d : List (String × α)) (k k2 : String) (v : α)
    (h : k ≠ k2) :
    dlookup k (d ++ [(k2, v)]) = dlookup k d := by
  induction d with
  | nil =>
      have h2 : ¬ (k2 = k) := fun hh => h hh.symm
      simp [dlookup, h2]
  | cons e rest ih =>
      by_cases hk : e.1 = k
      · simp [dlookup, hk]
      · simp [dlookup, hk, ih]

theorem dlookup_append_self {α : Type} (d : List (String × α)) (k : String) (v : α)
    (h : dlookup k d = none) :
    dlookup k (d ++ [(k, v)]) = some v := by
  induction d with
  | nil => simp [dlookup]
  | cons e rest ih =>
      by_cases hk : e.1 = k
      · simp [dlookup, hk] at h
      · simp only [dlookup, hk] at h
        simp only [List.cons_append]
        simp [dlookup, hk]
        exact ih h

theorem dlookup_dset_self {α : Type} (d : List (String × α)) (k : String) (v : α) :
    dlookup k (dset d k v) = some v := by
  by_cases h : (dlookup k d).isSome
  · simp [dset, h, dlookup_map_replace]
  · have hn : dlookup k d = none := by
      cases hx : dlookup k d with
      | none => rfl
      | some w => rw [hx] at h; simp at h
    simp [dset, h, dlookup_append_self _ _ _ hn]

theorem dlookup_dset_ne {α : Type} (d : List (String × α)) (k k2 : String) (v : α)
    (h : k ≠ k2) :
    dlookup k (dset d k2 v) = dlookup k d := by
  by_cases hs : (dlookup k2 d).isSome
  · simp [dset, hs, dlookup_map_replace_ne _ _ _ _ h]
  · simp [dset, hs, dlookup_append_singleton _ _ _ _ h]

/-! ### Nested get/set lemmas -/

theorem get_of_set_nested (parts : List String) :
    ∀ (d d2 : Dict) (v : Val), set_nested_parts d parts v = some d2 →
      get_nested_parts (.vdict d2) parts = v := by
  induction parts with
  | nil => intro d d2 v h; simp [set_nested_parts] at h
  | cons k rest ih =>
      intro d d2 v h
      cases rest with
      | nil =>
          simp only [set_nested_parts, Option.some.injEq] at h
          subst h
          simp [get_nested_parts, dlookup_dset_self]
      | cons k2 ks =>
          cases hl : dlookup k d with
          | none =>
              simp only [set_nested_parts, hl] at h
              cases hs : set_nested_parts [] (k2 :: ks) v with
              | none => simp [hs] at h
              | some sub2 =>
                  simp only [hs, Option.map_some', Option.some.injEq] at h
                  subst h
                  simp only [get_nested_parts, dlookup_dset_self]
                  exact ih [] sub2 v hs
          | some w =>
              cases w with
              | vdict sub =>
                  simp only [set_nested_parts, hl] at h
                  cases hs : set_nested_parts sub (k2 :: ks) v with
                  | none => simp [hs] at h
                  | some sub2 =>
                      simp only [hs, Option.map_some', Option.some.injEq] at h
                      subst h
                      simp only [get_nested_parts, dlookup_dset_self]
                      exact ih sub sub2 v hs
              | vnull =>
                  simp only [set_nested_parts, hl] at h
                  cases hs : set_nested_parts [] (k2 :: ks) v with
                  | none => simp [hs] at h
                  | some sub2 =>
                      simp only [hs, Option.map_some', Option.some.injEq] at h
                      subst h
                      simp only [get_nested_parts, dlookup_dset_self]
                      exact ih [] sub2 v hs
              | vbool b => simp [set_nested_parts, hl] at h
              | vnum q => simp [set_nested_parts, hl] at h
              | vstr s => simp [set_nested_parts, hl] at h
              | vlist l => simp [set_nested_parts, hl] at h

theorem set_nested_isSome_of_get_dict (rest : List String) :
    ∀ (k : String) (d e : Dict) (w : Val),
      get_nested_parts (.vdict d) (k :: rest) = .vdict e →
      ∃ d2, set_nested_parts d (k :: rest) w = some d2 := by
  induction rest with
  | nil =>
      intro k d e w _
      exact ⟨dset d k w, rfl⟩
  | cons k2 ks ih =>
      intro k d e w h
      simp only [get_nested_parts] at h
      cases hl : dlookup k d with
      | none => rw [hl] at h; simp at h
      | some v =>
          rw [hl] at h
          cases v with
          | vdict sub =>
              obtain ⟨sub2, hs⟩ := ih k2 sub e w h
              refine ⟨dset d k (.vdict sub2), ?_⟩
              simp [set_nested_parts, hl, hs]
          | vnull => simp [get_nested_parts] at h
          | vbool b => simp [get_nested_parts] at h
          | vnum q => simp [get_nested_parts] at h
          | vstr s => simp [get_nested_parts] at h
          | vlist l => simp [get_nested_parts] at h

theorem splitDotChars_ne_nil (cs : List Char) : splitDotChars cs ≠ [] := by
  cases cs with
  | nil => simp [splitDotChars]
  | cons c rest =>
      unfold splitDotChars
      by_cases h : c = '.'
      · simp [h]
      · simp only [h, if_false, Bool.false_eq_true, reduceIte]
        cases splitDotChars rest <;> simp

theorem splitDot_cons (s : String) : ∃ k rest, splitDot s = k :: rest := by
  unfold splitDot
  cases h : splitDotChars s.toList with
  | nil => exact absurd h (splitDotChars_ne_nil _)
  | cons w ws => exact ⟨String.mk w, ws.map (fun l => String.mk l), by simp⟩

theorem dlookup_nil_none {α : Type} (k : String) : dlookup k ([] : List (String × α)) = none := rfl

/-- Shared characterization of the merge node's branches. -/
theorem merge_node_keep (state new_data : Dict) (data_path : String)
    (ed : Dict) (c_old c_new : ℚ)
    (hex : get_nested_field state data_path = .vdict ed)
    (hconf : dlookup "confidence" ed = some (.vnum c_old))
    (hle : c_new ≤ c_old) :
    merge.node state new_data data_path c_new none "confidence" none = some state := by
  have hne : ed ≠ [] := by
    intro he; rw [he] at hconf; simp [dlookup] at hconf
  have hfalsy : falsy (Val.vdict ed) = false := by
    cases ed with
    | nil => exact absurd rfl hne
    | cons e r => rfl
  simp [merge.node, hex, hfalsy, hconf, asNum, not_lt.mpr hle]

theorem merge_node_write (state new_data : Dict) (data_path : String) (c_new : ℚ) (s2 : Dict)
    (hfalsy : falsy (get_nested_field state data_path) = true)
    (hrun : merge.node state new_data data_path c_new none "confidence" none = some s2) :
    get_nested_field s2 data_path = .vdict (dset new_data "confidence" (.vnum c_new)) := by
  simp only [merge.node, hfalsy, if_true] at hrun
  exact get_of_set_nested _ _ _ _ hrun

theorem merge_node_accept (state new_data : Dict) (data_path : String)
    (ed : Dict) (c_old c_new : ℚ) (s2 : Dict)
    (hex : get_nested_field state data_path = .vdict ed)
    (hconf : dlookup "confidence" ed = some (.vnum c_old))
    (hlt : c_old < c_new)
    (hrun : merge.node state new_data data_path c_new none "confidence" none = some s2) :
    get_nested_field s2 data_path =
      .vdict (dset (pyUnion ed new_data) "confidence" (.vnum c_new)) := by
  have hne : ed ≠ [] := by
    intro he; rw [he] at hconf; simp [dlookup] at hconf
  have hfalsy : falsy (Val.vdict ed) = false := by
    cases ed with
    | nil => exact absurd rfl hne
    | cons e r => rfl
  unfold merge.node at hrun
  rw [hex] at hrun
  simp only [hfalsy, Bool.false_eq_true, if_false, reduceIte, hconf, Option.getD_some,
    asNum, hlt, if_true] at hrun
  exact get_of_set_nested _ _ _ _ hrun

theorem merge_node_accept_some (state new_data : Dict) (data_path : String)
    (ed : Dict) (c_old c_new : ℚ)
    (hex : get_nested_field state data_path = .vdict ed)
    (hconf : dlookup "confidence" ed = some (.vnum c_old))
    (hlt : c_old < c_new) :
    ∃ s2, merge.node state new_data data_path c_new none "confidence" none = some s2 := by
  have hne : ed ≠ [] := by
    intro he; rw [he] at hconf; simp [dlookup] at hconf
  have hfalsy : falsy (Val.vdict ed) = false := by
    cases ed with
    | nil => exact absurd rfl hne
    | cons e r => rfl
  obtain ⟨k, rest, hsplit⟩ := splitDot_cons data_path
  have hget : get_nested_parts (.vdict state) (k :: rest) = .vdict ed := by
    rw [← hsplit]; exact hex
  obtain ⟨d2, hd2⟩ := set_nested_isSome_of_get_dict rest k state ed
    (.vdict (dset (pyUnion ed new_data) "confidence" (.vnum c_new))) hget
  refine ⟨d2, ?_⟩
  simp only [merge.node, hex, hfalsy, Bool.false_eq_true, if_false, reduceIte, hconf,
    Option.getD_some, asNum, hlt, if_true]
  unfold set_nested_field
  rw [hsplit]
  exact hd2

/-- C1: for every state whose target path holds non-empty existing data with
stored confidence `c_old`, a default-strategy merge call (no custom merge
function) with confidence `c_new ≤ c_old` (ties included) returns the state
completely unchanged — replacement requires strictly greater confidence. -/
theorem C1_merge_keeps_existing_on_le (state new_data : Dict) (data_path : String)
    (ed : Dict) (c_old c_new : ℚ)
    (hex : get_nested_field state data_path = .vdict ed)
    (hne : ed ≠ [])
    (hconf : dlookup "confidence" ed = some (.vnum c_old))
    (hle : c_new ≤ c_old) :
    merge.node state new_data data_path c_new none "confidence" none = some state :=
  merge_node_keep state new_data data_path ed c_old c_new hex hconf hle

/-- C1 witness: a concrete low-confidence merge attempt (0.5 against stored
0.9) leaves the state untouched. -/
theorem C1_merge_keeps_existing_on_le_witness :
    merge.node
      [("customer", Val.vdict [("first_name", Val.vstr "Sneha"), ("confidence", Val.vnum (mkRat 9 10))])]
      [("first_name", Val.vstr "Shukriya")] "customer" (mkRat 5 10) none "confidence" none =
      some [("customer", Val.vdict [("first_name", Val.vstr "Sneha"), ("confidence", Val.vnum (mkRat 9 10))])] :=
  C1_merge_keeps_existing_on_le _ _ _
    [("first_name", Val.vstr "Sneha"), ("confidence", Val.vnum (mkRat 9 10))]
    (mkRat 9 10) (mkRat 5 10) rfl (List.cons_ne_nil _ _) rfl (by decide)

/-- C3: for every state where the target path holds a null or otherwise
empty/falsy value, a merge call writes the new data unconditionally — for any
new confidence, including 0 — storing the new payload with a confidence entry
equal to the supplied confidence. -/
theorem C3_merge_writes_unconditionally_when_empty (state new_data : Dict)
    (data_path : String) (c_new : ℚ) (s2 : Dict)
    (hfalsy : falsy (get_nested_field state data_path) = true)
    (hrun : merge.node state new_data data_path c_new none "confidence" none = some s2) :
    get_nested_field s2 data_path = .vdict (dset new_data "confidence" (.vnum c_new)) :=
  merge_node_write state new_data data_path c_new s2 hfalsy hrun

/-- C3 witness: merging into an absent `customer` path with confidence 0
still writes the payload, with confidence entry 0. -/
theorem C3_merge_writes_unconditionally_when_empty_witness :
    get_nested_field [("customer", Val.vdict [("first_name", Val.vstr "Ravi"), ("confidence", Val.vnum 0)])]
      "customer" = Val.vdict [("first_name", Val.vstr "Ravi"), ("confidence", Val.vnum 0)] :=
  C3_merge_writes_unconditionally_when_empty [] [("first_name", Val.vstr "Ravi")]
    "customer" 0 [("customer", Val.vdict [("first_name", Val.vstr "Ravi"), ("confidence", Val.vnum 0)])]
    rfl rfl

/-! ### Merge-sequence lemmas -/

theorem foldl_merge_none (p : String) (calls : List (Dict × ℚ)) :
    List.foldl
      (fun acc pc => acc.bind (fun s => merge.node s pc.1 p pc.2 none "confidence" none))
      none calls = none := by
  induction calls with
  | nil => rfl
  | cons c cs ih => simp only [List.foldl_cons, Option.none_bind]; exact ih

theorem mergeSeq_nil (s : Dict) (p : String) : merge.mergeSeq s p [] = some s := rfl

theorem mergeSeq_cons_some (s : Dict) (p : String) (pc : Dict × ℚ) (rest : List (Dict × ℚ))
    (s1 : Dict) (h : merge.node s pc.1 p pc.2 none "confidence" none = some s1) :
    merge.mergeSeq s p (pc :: rest) = merge.mergeSeq s1 p rest := by
  simp only [merge.mergeSeq, List.foldl_cons, Option.some_bind, h]

theorem mergeSeq_cons_none (s : Dict) (p : String) (pc : Dict × ℚ) (rest : List (Dict × ℚ))
    (h : merge.node s pc.1 p pc.2 none "confidence" none = none) :
    merge.mergeSeq s p (pc :: rest) = none := by
  simp only [merge.mergeSeq, List.foldl_cons, Option.some_bind, h]
  exact foldl_merge_none p rest

theorem mergeSeq_cons_inv (s : Dict) (p : String) (pc : Dict × ℚ) (rest : List (Dict × ℚ))
    (sF : Dict) (h : merge.mergeSeq s p (pc :: rest) = some sF) :
    ∃ s1, merge.node s pc.1 p pc.2 none "confidence" none = some s1 ∧
      merge.mergeSeq s1 p rest = some sF := by
  cases hnode : merge.node s pc.1 p pc.2 none "confidence" none with
  | none => rw [mergeSeq_cons_none _ _ _ _ hnode] at h; exact absurd h (by simp)
  | some s1 =>
      rw [mergeSeq_cons_some _ _ _ _ _ hnode] at h
      exact ⟨s1, rfl, h⟩

theorem mergeSeq_append_some (s : Dict) (p : String) (l1 l2 : List (Dict × ℚ)) (sF : Dict)
    (h : merge.mergeSeq s p (l1 ++ l2) = some sF) :
    ∃ s1, merge.mergeSeq s p l1 = some s1 ∧ merge.mergeSeq s1 p l2 = some sF := by
  induction l1 generalizing s with
  | nil => exact ⟨s, rfl, h⟩
  | cons pc l1x ih =>
      rw [List.cons_append] at h
      obtain ⟨s1, hnode, hrest⟩ := mergeSeq_cons_inv _ _ _ _ _ h
      obtain ⟨sMid, h1, h2⟩ := ih s1 hrest
      exact ⟨sMid, by rw [mergeSeq_cons_some _ _ _ _ _ hnode]; exact h1, h2⟩

theorem mergeSeq_conf (p : String) (calls : List (Dict × ℚ)) :
    ∀ (s ed : Dict) (m : ℚ) (sF : Dict),
      get_nested_field s p = .vdict ed →
      dlookup "confidence" ed = some (.vnum m) →
      merge.mergeSeq s p calls = some sF →
      ∃ edF, get_nested_field sF p = .vdict edF ∧
        dlookup "confidence" edF =
          some (.vnum (calls.foldl (fun a pc => max a pc.2) m)) := by
  induction calls with
  | nil =>
      intro s ed m sF hex hconf hrun
      rw [mergeSeq_nil, Option.some.injEq] at hrun
      subst hrun
      exact ⟨ed, hex, hconf⟩
  | cons pc rest ih =>
      intro s ed m sF hex hconf hrun
      by_cases hlt : m < pc.2
      · obtain ⟨s1, hnode, hrest⟩ := mergeSeq_cons_inv _ _ _ _ _ hrun
        have hget1 := merge_node_accept s pc.1 p ed m pc.2 s1 hex hconf hlt hnode
        have hconf1 : dlookup "confidence"
            (dset (pyUnion ed pc.1) "confidence" (.vnum pc.2)) = some (.vnum pc.2) :=
          dlookup_dset_self _ _ _
        have hres := ih s1 _ pc.2 sF hget1 hconf1 hrest
        simp only [List.foldl_cons]
        rw [max_eq_right hlt.le]
        exact hres
      · push_neg at hlt
        have hnode := merge_node_keep s pc.1 p ed m pc.2 hex hconf hlt
        rw [mergeSeq_cons_some _ _ _ _ _ hnode] at hrun
        have hres := ih s ed m sF hex hconf hrun
        simp only [List.foldl_cons]
        rw [max_eq_left hlt]
        exact hres

theorem mergeSeq_stable (p : String) (calls : List (Dict × ℚ)) :
    ∀ (s ed : Dict) (m : ℚ),
      get_nested_field s p = .vdict ed →
      dlookup "confidence" ed = some (.vnum m) →
      (∀ pc ∈ calls, pc.2 ≤ m) →
      merge.mergeSeq s p calls = some s := by
  induction calls with
  | nil => intro s ed m _ _ _; rfl
  | cons pc rest ih =>
      intro s ed m hex hconf hall
      have h1 : pc.2 ≤ m := hall pc (List.mem_cons_self _ _)
      have hnode := merge_node_keep s pc.1 p ed m pc.2 hex hconf h1
      rw [mergeSeq_cons_some _ _ _ _ _ hnode]
      exact ih s ed m hex hconf (fun q hq => hall q (List.mem_cons_of_mem _ hq))

theorem foldl_max_lt (c : ℚ) (l : List (Dict × ℚ)) :
    ∀ m, m < c → (∀ pc ∈ l, pc.2 < c) →
      List.foldl (fun a pc => max a pc.2) m l < c := by
  induction l with
  | nil => intro m h _; exact h
  | cons pc rest ih =>
      intro m hm hall
      simp only [List.foldl_cons]
      exact ih _ (max_lt hm (hall pc (List.mem_cons_self _ _)))
        (fun q hq => hall q (List.mem_cons_of_mem _ hq))

theorem pyUnion_lookup_not_mem {α : Type} (b : List (String × α)) :
    ∀ (a : List (String × α)) (k : String), k ∉ b.map Prod.fst →
      dlookup k (pyUnion a b) = dlookup k a := by
  induction b with
  | nil => intro a k _; rfl
  | cons e bs ih =>
      intro a k h
      simp only [List.map_cons, List.mem_cons] at h
      push_neg at h
      obtain ⟨h1, h2⟩ := h
      show dlookup k (pyUnion (dset a e.1 e.2) bs) = dlookup k a
      rw [ih _ _ h2, dlookup_dset_ne _ _ _ _ h1]

theorem pyUnion_lookup_right {α : Type} (b : List (String × α)) :
    ∀ (a : List (String × α)) (k : String) (v : α),
      (b.map Prod.fst).Nodup → dlookup k b = some v →
      dlookup k (pyUnion a b) = some v := by
  induction b with
  | nil => intro a k v _ h; simp [dlookup] at h
  | cons e bs ih =>
      intro a k v hnd h
      simp only [List.map_cons, List.nodup_cons] at hnd
      obtain ⟨hnm, hnd2⟩ := hnd
      by_cases hk : e.1 = k
      · have hv : e.2 = v := by
          simp only [dlookup, hk, if_true, Option.some.injEq] at h
          exact h
        have hnotin : k ∉ bs.map Prod.fst := by rw [← hk]; exact hnm
        show dlookup k (pyUnion (dset a e.1 e.2) bs) = some v
        rw [pyUnion_lookup_not_mem bs _ _ hnotin, hk, dlookup_dset_self, hv]
      · have h2 : dlookup k bs = some v := by
          simp only [dlookup, hk, if_false] at h
          exact h
        show dlookup k (pyUnion (dset a e.1 e.2) bs) = some v
        exact ih _ _ _ hnd2 h2

/-- C2 counterexample: two merges into an initially-absent path with
disjoint payload keys.  The maximum confidence (9/10) comes from the second
call with payload containing only key `"b"`, yet the stored payload still
holds key `"a"` from the earlier accepted call — so the stored payload does
not equal the payload of the maximum-confidence call, refuting the claim as
stated at this input (the stored confidence does equal the maximum). -/
theorem C2_counterexample :
    merge.mergeSeq [] "customer"
        [([("a", Val.vnum 1)], mkRat 1 2), ([("b", Val.vnum 2)], mkRat 9 10)] =
      some [("customer", Val.vdict
        [("a", Val.vnum 1), ("confidence", Val.vnum (mkRat 9 10)), ("b", Val.vnum 2)])] ∧
    dlookup "a" [("a", Val.vnum 1), ("confidence", Val.vnum (mkRat 9 10)), ("b", Val.vnum 2)] =
      some (Val.vnum 1) ∧
    dlookup "a" (dset [("b", Val.vnum 2)] "confidence" (Val.vnum (mkRat 9 10))) = none :=
  ⟨rfl, rfl, rfl⟩

/-- C2 (amended): for every sequence of default-strategy merges into an
initially null/empty path, decomposed around the first call attaining the
maximum confidence (all earlier confidences strictly below it, all later ones
at most it), the stored confidence after the sequence equals the maximum of
all attempted confidences, and every non-confidence field of the
maximum-confidence call's payload is present in the stored payload with that
call's value (fields from earlier accepted merges that the maximum call did
not overwrite may also persist). -/
theorem C2_mergeSeq_max_confidence (state : Dict) (data_path : String)
    (pre post : List (Dict × ℚ)) (pmax : Dict) (cmax : ℚ) (sF : Dict)
    (h0 : falsy (get_nested_field state data_path) = true)
    (hpre : ∀ pc ∈ pre, pc.2 < cmax)
    (hpost : ∀ pc ∈ post, pc.2 ≤ cmax)
    (hnodup : (pmax.map Prod.fst).Nodup)
    (hrun : merge.mergeSeq state data_path (pre ++ (pmax, cmax) :: post) = some sF) :
    ((pre ++ (pmax, cmax) :: post).map Prod.snd).maximum = (cmax : WithBot ℚ) ∧
    ∃ edF, get_nested_field sF data_path = .vdict edF ∧
      dlookup "confidence" edF = some (.vnum cmax) ∧
      ∀ k v, k ≠ "confidence" → dlookup k pmax = some v → dlookup k edF = some v := by
  constructor
  · rw [List.maximum_eq_coe_iff]
    constructor
    · simp
    · intro b hb
      simp only [List.map_append, List.map_cons, List.mem_append, List.mem_cons] at hb
      rcases hb with h | h | h
      · obtain ⟨pc, hpc, rfl⟩ := List.mem_map.mp h
        exact (hpre pc hpc).le
      · exact le_of_eq h
      · obtain ⟨pc, hpc, rfl⟩ := List.mem_map.mp h
        exact hpost pc hpc
  · cases pre with
    | nil =>
        rw [List.nil_append] at hrun
        obtain ⟨s1, hnode, hrest⟩ := mergeSeq_cons_inv _ _ _ _ _ hrun
        have hget1 := merge_node_write state pmax data_path cmax s1 h0 hnode
        have hconf1 : dlookup "confidence" (dset pmax "confidence" (.vnum cmax)) =
            some (.vnum cmax) := dlookup_dset_self _ _ _
        have hstable := mergeSeq_stable data_path post s1 _ cmax hget1 hconf1 hpost
        rw [hstable, Option.some.injEq] at hrest
        subst hrest
        refine ⟨dset pmax "confidence" (.vnum cmax), hget1, hconf1, ?_⟩
        intro k v hk hv
        rw [dlookup_dset_ne _ _ _ _ hk]
        exact hv
    | cons p1 pre2 =>
        rw [List.cons_append] at hrun
        obtain ⟨s1, hnode1, hrest1⟩ := mergeSeq_cons_inv _ _ _ _ _ hrun
        have hget1 := merge_node_write state p1.1 data_path p1.2 s1 h0 hnode1
        have hconf1 : dlookup "confidence" (dset p1.1 "confidence" (.vnum p1.2)) =
            some (.vnum p1.2) := dlookup_dset_self _ _ _
        obtain ⟨sP, hPre, hMid⟩ := mergeSeq_append_some _ _ _ _ _ hrest1
        obtain ⟨edP, hgetP, hconfP⟩ :=
          mergeSeq_conf data_path pre2 s1 _ p1.2 sP hget1 hconf1 hPre
        have hmPlt : List.foldl (fun a pc => max a pc.2) p1.2 pre2 < cmax :=
          foldl_max_lt cmax pre2 p1.2 (hpre p1 (List.mem_cons_self _ _))
            (fun q hq => hpre q (List.mem_cons_of_mem _ hq))
        obtain ⟨s2, hnode2, hrest2⟩ := mergeSeq_cons_inv _ _ _ _ _ hMid
        have hget2 := merge_node_accept sP pmax data_path edP _ cmax s2 hgetP hconfP hmPlt hnode2
        have hconf2 : dlookup "confidence"
            (dset (pyUnion edP pmax) "confidence" (.vnum cmax)) = some (.vnum cmax) :=
          dlookup_dset_self _ _ _
        have hstable := mergeSeq_stable data_path post s2 _ cmax hget2 hconf2 hpost
        rw [hstable, Option.some.injEq] at hrest2
        subst hrest2
        refine ⟨dset (pyUnion edP pmax) "confidence" (.vnum cmax), hget2, hconf2, ?_⟩
        intro k v hk hv
        rw [dlookup_dset_ne _ _ _ _ hk]
        exact pyUnion_lookup_right pmax edP k v hnodup hv

/-- C2 witness: three concrete merges (0.5, then the maximum 0.9, then a
rejected 0.6) into an initially-absent path; the stored confidence is the
maximum 0.9 and the maximum call's field survives. -/
theorem C2_mergeSeq_max_confidence_witness :
    (([([("a", Val.vnum 1)], mkRat 1 2)] ++
        ([("name", Val.vstr "Ravi")], mkRat 9 10) :: [([("name", Val.vstr "X")], mkRat 6 10)]).map
      Prod.snd).maximum = ((mkRat 9 10 : ℚ) : WithBot ℚ) ∧
    ∃ edF, get_nested_field
        [("customer", Val.vdict
          [("a", Val.vnum 1), ("confidence", Val.vnum (mkRat 9 10)), ("name", Val.vstr "Ravi")])]
        "customer" = .vdict edF ∧
      dlookup "confidence" edF = some (.vnum (mkRat 9 10)) ∧
      ∀ k v, k ≠ "confidence" → dlookup k [("name", Val.vstr "Ravi")] = some v →
        dlookup k edF = some v :=
  C2_mergeSeq_max_confidence [] "customer"
    [([("a", Val.vnum 1)], mkRat 1 2)] [([("name", Val.vstr "X")], mkRat 6 10)]
    [("name", Val.vstr "Ravi")] (mkRat 9 10)
    [("customer", Val.vdict
      [("a", Val.vnum 1), ("confidence", Val.vnum (mkRat 9 10)), ("name", Val.vstr "Ravi")])]
    rfl (by intro pc hpc; simp at hpc; rw [hpc]; decide)
    (by intro pc hpc; simp at hpc; rw [hpc]; decide)
    (by simp) rfl

/-! ### Resume router (workflows/existing_user_booking.py) -/

/-- Python `state.get(k)`: the stored value, or `None` when absent. -/
def pyGet (state : Dict) (k : String) : Val := (dlookup k state).getD .vnull

/-- Python `v is None`. -/
def isNone (v : Val) : Bool :=
  match v with
  | .vnull => true
  | _ => false

namespace existing_user_booking

/-- `check_resume_point` of workflows/existing_user_booking.py: route to the
correct resume point based on which state fields are populated. -/
def check_resume_point (state : Dict) : String :=
  if truthy (pyGet state "vehicle_options") && !truthy (pyGet state "vehicle_selected") then
    "awaiting_vehicle"
  else if truthy (pyGet state "filtered_services") && !truthy (pyGet state "service_selected") then
    "awaiting_service"
  else if truthy (pyGet state "available_slots") && !truthy (pyGet state "slot_selected") then
    "awaiting_slot"
  else if truthy (pyGet state "selected_service") && truthy (pyGet state "slot_selected")
      && isNone (pyGet state "confirmed") then
    "awaiting_confirmation"
  else
    "fresh_start"

end existing_user_booking

/-- The router's vehicle-selection condition. -/
def awaitingVehicleCond (state : Dict) : Bool :=
  truthy (pyGet state "vehicle_options") && !truthy (pyGet state "vehicle_selected")

/-- The router's service-selection condition. -/
def awaitingServiceCond (state : Dict) : Bool :=
  truthy (pyGet state "filtered_services") && !truthy (pyGet state "service_selected")

/-- The router's slot-selection condition. -/
def awaitingSlotCond (state : Dict) : Bool :=
  truthy (pyGet state "available_slots") && !truthy (pyGet state "slot_selected")

/-- The router's confirmation condition. -/
def awaitingConfirmationCond (state : Dict) : Bool :=
  truthy (pyGet state "selected_service") && truthy (pyGet state "slot_selected")
    && isNone (pyGet state "confirmed")

/-- C4: the resume router resolves simultaneous conditions in the fixed
precedence order vehicle → service → slot → confirmation → fresh start: the
vehicle condition always wins when it holds (so a state that is also
awaiting service selection still routes to vehicle selection, never service
selection), each later route requires all earlier conditions false, and a
state matching none of the four conditions routes to fresh start. -/
theorem C4_resume_precedence (state : Dict) :
    (awaitingVehicleCond state = true →
      existing_user_booking.check_resume_point state = "awaiting_vehicle") ∧
    (awaitingVehicleCond state = false → awaitingServiceCond state = true →
      existing_user_booking.check_resume_point state = "awaiting_service") ∧
    (awaitingVehicleCond state = false → awaitingServiceCond state = false →
      awaitingSlotCond state = true →
      existing_user_booking.check_resume_point state = "awaiting_slot") ∧
    (awaitingVehicleCond state = false → awaitingServiceCond state = false →
      awaitingSlotCond state = false → awaitingConfirmationCond state = true →
      existing_user_booking.check_resume_point state = "awaiting_confirmation") ∧
    (awaitingVehicleCond state = false → awaitingServiceCond state = false →
      awaitingSlotCond state = false → awaitingConfirmationCond state = false →
      existing_user_booking.check_resume_point state = "fresh_start") := by
  unfold awaitingVehicleCond awaitingServiceCond awaitingSlotCond awaitingConfirmationCond
    existing_user_booking.check_resume_point
  refine ⟨?_, ?_, ?_, ?_, ?_⟩
  · intro h1; simp [h1]
  · intro h1 h2; simp [h1, h2]
  · intro h1 h2 h3; simp [h1, h2, h3]
  · intro h1 h2 h3 h4; simp [h1, h2, h3, h4]
  · intro h1 h2 h3 h4; simp [h1, h2, h3, h4]

/-- C4 witness: a state simultaneously awaiting vehicle selection and
service selection routes to vehicle selection; the empty state routes to
fresh start. -/
theorem C4_resume_precedence_witness :
    existing_user_booking.check_resume_point
      [("vehicle_options", Val.vlist [Val.vstr "car1"]),
       ("filtered_services", Val.vlist [Val.vstr "wash"])] = "awaiting_vehicle" ∧
    existing_user_booking.check_resume_point [] = "fresh_start" :=
  ⟨(C4_resume_precedence _).1 rfl,
   (C4_resume_precedence []).2.2.2.2 rfl rfl rfl rfl⟩

/-! ### Dual-tier checkpointer (core/dual_checkpointer.py) -/

/-- A checkpoint storage tier keyed by thread id.  Models the external
backend contract of the fast tier (`MemorySaver`) and the durable tier
(`AsyncSqliteSaver`): `put` stores a checkpoint under the key and returns a
result config (modelled by the key); `get` retrieves it. -/
structure Store (α : Type) where
  entries : List (String × α)

def Store.aget {α : Type} (s : Store α) (k : String) : Option α := dlookup k s.entries

def Store.aput {α : Type} (s : Store α) (k : String) (c : α) : Store α × String :=
  (⟨dset s.entries k c⟩, k)

/-- `DualCheckpointer` of core/dual_checkpointer.py: an in-memory primary
tier backed by a SQLite tier. -/
structure DualCheckpointer (α : Type) where
  memory : Store α
  sqlite : Store α

/-- `DualCheckpointer.aput`: save to memory first, then attempt SQLite; a
SQLite failure (`sqliteFails`) is caught and logged, leaving the SQLite tier
unchanged; the memory result is returned either way. -/
def DualCheckpointer.aput {α : Type} (d : DualCheckpointer α) (k : String) (c : α)
    (sqliteFails : Bool) : String × DualCheckpointer α :=
  let mem2 := d.memory.aput k c
  if sqliteFails then
    (mem2.2, ⟨mem2.1, d.sqlite⟩)
  else
    let sql2 := d.sqlite.aput k c
    (mem2.2, ⟨mem2.1, sql2.1⟩)

/-- `DualCheckpointer.aget_tuple`: read memory first; on a miss fall back to
SQLite (a SQLite failure is caught, yielding `none`), and on a SQLite hit
restore the value into memory before returning it. -/
def DualCheckpointer.aget_tuple {α : Type} (d : DualCheckpointer α) (k : String)
    (sqliteFails : Bool) : Option α × DualCheckpointer α :=
  match d.memory.aget k with
  | some r => (some r, d)
  | none =>
      if sqliteFails then (none, d)
      else
        match d.sqlite.aget k with
        | some r => (some r, ⟨(d.memory.aput k r).1, d.sqlite⟩)
        | none => (none, d)

/-- C7: every checkpoint put writes the fast (memory) tier first and then
attempts the durable (SQLite) tier; when the durable write raises, the put
still returns the fast-tier result, the fast-tier write is retained, and the
durable tier is simply left unchanged — identical to the success case on the
fast tier. -/
theorem C7_put_survives_durable_failure {α : Type} (d : DualCheckpointer α)
    (k : String) (c : α) :
    (d.aput k c true).1 = (d.memory.aput k c).2 ∧
    (d.aput k c true).2.memory.aget k = some c ∧
    (d.aput k c true).2.sqlite = d.sqlite ∧
    (d.aput k c false).1 = (d.aput k c true).1 ∧
    (d.aput k c false).2.memory = (d.aput k c true).2.memory := by
  refine ⟨rfl, ?_, rfl, rfl, rfl⟩
  show dlookup k (dset d.memory.entries k c) = some c
  exact dlookup_dset_self _ _ _

/-- C8: after the fast tier is emptied (restart), a get with the durable
tier holding a checkpoint returns that durable value, rehydrates the fast
tier with it, and every subsequent get for the same key is served from the
fast tier without consulting the durable tier (it succeeds even when the
durable tier is failing). -/
theorem C8_restart_recovery {α : Type} (d : DualCheckpointer α) (k : String) (c : α)
    (hmem : d.memory.aget k = none)
    (hsql : d.sqlite.aget k = some c) :
    (d.aget_tuple k false).1 = some c ∧
    (d.aget_tuple k false).2.memory.aget k = some c ∧
    (∀ b : Bool, (d.aget_tuple k false).2.aget_tuple k b =
      (some c, (d.aget_tuple k false).2)) := by
  have h1 : d.aget_tuple k false = (some c, ⟨(d.memory.aput k c).1, d.sqlite⟩) := by
    simp [DualCheckpointer.aget_tuple, hmem, hsql]
  have h2 : ((d.memory.aput k c).1 : Store α).aget k = some c := by
    show dlookup k (dset d.memory.entries k c) = some c
    exact dlookup_dset_self _ _ _
  refine ⟨by rw [h1], by rw [h1]; exact h2, ?_⟩
  intro b
  rw [h1]
  simp [DualCheckpointer.aget_tuple, h2]

/-- C8 witness: a concrete checkpointer with an empty memory tier and one
durable checkpoint. -/
theorem C8_restart_recovery_witness :
    ((⟨⟨[]⟩, ⟨[("t1", 42)]⟩⟩ : DualCheckpointer ℕ).aget_tuple "t1" false).1 = some 42 ∧
    ((⟨⟨[]⟩, ⟨[("t1", 42)]⟩⟩ : DualCheckpointer ℕ).aget_tuple "t1" false).2.memory.aget "t1" =
      some 42 ∧
    (∀ b : Bool,
      (((⟨⟨[]⟩, ⟨[("t1", 42)]⟩⟩ : DualCheckpointer ℕ).aget_tuple "t1" false).2.aget_tuple "t1" b) =
        (some 42, ((⟨⟨[]⟩, ⟨[("t1", 42)]⟩⟩ : DualCheckpointer ℕ).aget_tuple "t1" false).2)) :=
  C8_restart_recovery ⟨⟨[]⟩, ⟨[("t1", 42)]⟩⟩ "t1" 42 rfl rfl

/-! ### Regex name extractor (fallbacks/name_fallback.py)

The two patterns are compiled by hand.  With `re.IGNORECASE`, `[A-Z]` and
`[a-z]` both match any ASCII letter, so `[A-Z][a-z]+` is a maximal run of at
least two letters; `\s+` is a nonempty run of whitespace; backtracking never
changes the outcome for these patterns, so the greedy reading below is
exact.  `re.search` scans candidate start positions left to right, trying
the trigger alternatives in written order at each position. -/

def isAsciiUpper (c : Char) : Bool := 'A' ≤ c && c ≤ 'Z'

def isAsciiLower (c : Char) : Bool := 'a' ≤ c && c ≤ 'z'

def isLetterCh (c : Char) : Bool := isAsciiUpper c || isAsciiLower c

/-- ASCII lowercasing (Python `str.lower` on the characters in play). -/
def toLowerCh (c : Char) : Char :=
  if isAsciiUpper c then Char.ofNat (c.toNat + 32) else c

/-- `\s` (ASCII whitespace). -/
def isWsCh (c : Char) : Bool :=
  c = ' ' || c = Char.ofNat 9 || c = Char.ofNat 10 || c = Char.ofNat 13 ||
    c = Char.ofNat 11 || c = Char.ofNat 12

/-- Python `str.isdigit` (ASCII digits). -/
def isDigitCh (c : Char) : Bool := '0' ≤ c && c ≤ '9'

/-- The apostrophe character. -/
def apostChar : Char := Char.ofNat 39

/-- `str.strip()`. -/
def stripChars (cs : List Char) : List Char :=
  ((cs.dropWhile isWsCh).reverse.dropWhile isWsCh).reverse

/-- `str.split()` worker: accumulate the current word (reversed). -/
def splitWsGo (cur : List Char) : List Char → List (List Char)
  | [] => if cur.isEmpty then [] else [cur.reverse]
  | c :: rest =>
      if isWsCh c then
        if cur.isEmpty then splitWsGo [] rest
        else cur.reverse :: splitWsGo [] rest
      else splitWsGo (c :: cur) rest

/-- Python `str.split()` (split on whitespace runs, no empty parts). -/
def splitWsChars (cs : List Char) : List (List Char) := splitWsGo [] cs

/-- `STOPWORDS` of name_fallback.py. -/
def STOPWORDS : List String :=
  ["hi", "hello", "hey", "haan", "yes", "ok", "okay",
   "sure", "yep", "yeah", "nope", "no", "thanks"]

/-- The trigger alternatives of pattern 1, in the regex's alternation order
(`my name is`, `i am`, `i'm`, `im`, `this is`, `call me`), lowercase. -/
def TRIGGERS : List (List Char) :=
  ["my name is".toList, "i am".toList, ['i', apostChar, 'm'], "im".toList,
   "this is".toList, "call me".toList]

/-- Case-insensitive literal match; returns the remaining input. -/
def matchLit : List Char → List Char → Option (List Char)
  | [], cs => some cs
  | _ :: _, [] => none
  | l :: ls, c :: cs => if toLowerCh c = l then matchLit ls cs else none

/-- `[A-Z][a-z]+(?:\s+[A-Z][a-z]+)?` under IGNORECASE: a maximal letter run
of length at least 2, optionally followed by whitespace and a second such
run; returns the exact matched characters (the capture group). -/
def matchNameGroup (cs : List Char) : Option (List Char) :=
  let w1 := cs.takeWhile isLetterCh
  let r1 := cs.dropWhile isLetterCh
  if w1.length < 2 then none
  else
    let wsRun := r1.takeWhile isWsCh
    let r2 := r1.dropWhile isWsCh
    let w2 := r2.takeWhile isLetterCh
    if wsRun ≠ [] ∧ 2 ≤ w2.length then some (w1 ++ wsRun ++ w2)
    else some w1

/-- Pattern 1 at a fixed start position: a trigger, `\s+`, then the name
group. -/
def tryPattern1At (cs : List Char) : Option (List Char) :=
  TRIGGERS.findSome? (fun t =>
    match matchLit t cs with
    | none => none
    | some r1 =>
        match r1 with
        | [] => none
        | c :: rest =>
            if isWsCh c then matchNameGroup (rest.dropWhile isWsCh) else none)

/-- `re.search` for pattern 1: leftmost start position wins. -/
def search1 : List Char → Option (List Char)
  | [] => none
  | c :: cs =>
      match tryPattern1At (c :: cs) with
      | some g => some g
      | none => search1 cs

/-- Pattern 2, `^([A-Z][a-z]+(?:\s+[A-Z][a-z]+)?)$` under IGNORECASE: the
whole string is one or two letter runs of length at least 2. -/
def matchPattern2 (cs : List Char) : Option (List Char) :=
  let w1 := cs.takeWhile isLetterCh
  let r1 := cs.dropWhile isLetterCh
  if w1.length < 2 then none
  else if r1.isEmpty then some cs
  else
    let wsRun := r1.takeWhile isWsCh
    let r2 := r1.dropWhile isWsCh
    let w2 := r2.takeWhile isLetterCh
    let r3 := r2.dropWhile isLetterCh
    if wsRun ≠ [] ∧ 2 ≤ w2.length ∧ r3 = [] then some cs
    else none

/-- Lines 59-69 of name_fallback.py: split `full_name` into first/last name
(the empty case is unreachable because every match starts with a letter). -/
def splitFullName (full : List Char) : Dict :=
  match splitWsChars full with
  | [] => []
  | [w] => [("first_name", .vstr (String.mk w)), ("last_name", .vstr "")]
  | w :: ws =>
      [("first_name", .vstr (String.mk w)),
       ("last_name", .vstr (String.intercalate " " (ws.map (fun l => String.mk l))))]

/-- The per-candidate stopword and digit filters (lines 50-56), then the
split; `none` models `continue`. -/
def checkCandidate (full : List Char) : Option Dict :=
  if (String.mk (full.map toLowerCh)) ∈ STOPWORDS then none
  else if full.any isDigitCh then none
  else some (splitFullName full)

namespace RegexNameExtractor

/-- `RegexNameExtractor.extract` of fallbacks/name_fallback.py: try pattern
1 then pattern 2 on the stripped message; a candidate rejected by the
filters falls through to the next pattern (`continue`). -/
def extract (message : String) : Option Dict :=
  if message = "" then none
  else
    match search1 (stripChars message.toList) with
    | some g =>
        match checkCandidate (stripChars g) with
        | some r => some r
        | none =>
            match matchPattern2 (stripChars message.toList) with
            | some g2 => checkCandidate (stripChars g2)
            | none => none
    | none =>
        match matchPattern2 (stripChars message.toList) with
        | some g2 => checkCandidate (stripChars g2)
        | none => none

end RegexNameExtractor

theorem checkCandidate_some (full : List Char) (r : Dict)
    (h : checkCandidate full = some r) :
    r = splitFullName full ∧
    (String.mk (full.map toLowerCh)) ∉ STOPWORDS ∧
    full.any isDigitCh = false := by
  unfold checkCandidate at h
  by_cases h1 : (String.mk (full.map toLowerCh)) ∈ STOPWORDS
  · rw [if_pos h1] at h; exact absurd h (by simp)
  · rw [if_neg h1] at h
    by_cases h2 : full.any isDigitCh = true
    · rw [if_pos h2] at h; exact absurd h (by simp)
    · have h2f : full.any isDigitCh = false := by
        revert h2; cases full.any isDigitCh <;> simp
      rw [if_neg h2] at h
      simp only [Option.some.injEq] at h
      exact ⟨h.symm, h1, h2f⟩

theorem extract_some_candidate (message : String) (r : Dict)
    (h : RegexNameExtractor.extract message = some r) :
    ∃ full, checkCandidate full = some r := by
  unfold RegexNameExtractor.extract at h
  by_cases hm : message = ""
  · rw [if_pos hm] at h; exact absurd h (by simp)
  · rw [if_neg hm] at h
    cases hs : search1 (stripChars message.toList) with
    | none =>
        simp only [hs] at h
        cases hp : matchPattern2 (stripChars message.toList) with
        | none =>
            rw [hp] at h
            simp at h
        | some g2 => simp only [hp] at h; exact ⟨stripChars g2, h⟩
    | some g =>
        simp only [hs] at h
        cases hc : checkCandidate (stripChars g) with
        | some r2 =>
            simp only [hc, Option.some.injEq] at h
            exact ⟨stripChars g, by rw [hc, h]⟩
        | none =>
            simp only [hc] at h
            cases hp : matchPattern2 (stripChars message.toList) with
            | none =>
                rw [hp] at h
                simp at h
            | some g2 => simp only [hp] at h; exact ⟨stripChars g2, h⟩

/-- C10: the regex name extractor returns `None` on the empty string, and
every returned record is the first/last-name split of a matched full name
that contains no digit character and, lowercased, is not one of the greeting
stopwords. -/
theorem C10_regex_extractor_output (message : String) (r : Dict)
    (h : RegexNameExtractor.extract message = some r) :
    (∃ full, r = splitFullName full ∧
      (String.mk (full.map toLowerCh)) ∉ STOPWORDS ∧
      full.any isDigitCh = false) ∧
    RegexNameExtractor.extract "" = none := by
  refine ⟨?_, rfl⟩
  obtain ⟨full, hc⟩ := extract_some_candidate message r h
  obtain ⟨h1, h2, h3⟩ := checkCandidate_some full r hc
  exact ⟨full, h1, h2, h3⟩

/-- C10 witness: a concrete extraction. -/
theorem C10_regex_extractor_output_witness :
    (∃ full, [("first_name", Val.vstr "Ravi"), ("last_name", Val.vstr "Kumar")] =
        splitFullName full ∧
      (String.mk (full.map toLowerCh)) ∉ STOPWORDS ∧
      full.any isDigitCh = false) ∧
    RegexNameExtractor.extract "" = none :=
  C10_regex_extractor_output "My name is Ravi Kumar"
    [("first_name", Val.vstr "Ravi"), ("last_name", Val.vstr "Kumar")] rfl

/-! ### Name-extraction node (nodes/extraction/extract_name.py) -/

namespace extract_name

/-- The record returned by the DSPy extractor (tier 1), an external
LLM-backed collaborator. -/
structure DspyName where
  first_name : String
  last_name : String
  confidence : ℚ

/-- The tier-3 clarification question of extract_name.py. -/
def clarification : String :=
  "I didn" ++ String.mk [apostChar] ++ "t catch your name. What" ++
    String.mk [apostChar] ++ "s your name?"

/-- The `customer` update block shared by tiers 1 and 2 (lines 87-90 and
102-105): materialize a falsy `customer` as `{}` then `dict.update` it with
`name_data`; a truthy non-dict `customer` makes `.update` raise (`none`). -/
def updateCustomer (state : Dict) (name_data : Dict) : Option Dict :=
  if falsy (pyGet state "customer") then
    some (dset state "customer" (.vdict name_data))
  else
    match pyGet state "customer" with
    | .vdict cd => some (dset state "customer" (.vdict (pyUnion cd name_data)))
    | _ => none

/-- Tier 1 (lines 83-93): the DSPy call `extract_name_dspy` is external and
is modelled by its outcome `dspyResult` (`none` models the tier raising,
e.g. timeout); on success the extracted data is tagged `dspy` and written
into `customer`, and `current_step` advances. -/
def tier1 (dspyResult : Option DspyName) (state : Dict) : Option Dict :=
  match dspyResult with
  | none => none
  | some nd =>
      let name_data : Dict :=
        [("first_name", .vstr nd.first_name), ("last_name", .vstr nd.last_name),
         ("extraction_method", .vstr "dspy"), ("confidence", .vnum nd.confidence)]
      match updateCustomer state name_data with
      | none => none
      | some s1 => some (dset s1 "current_step" (.vstr "extract_phone"))

/-- `extract_name_regex` of extract_name.py: regex extraction over the
state's `user_message`, tagging method `regex` with confidence 0.70;
`none` models the `ValueError` on no match (or the KeyError/TypeError when
`user_message` is absent or not a string). -/
def extract_name_regex (state : Dict) : Option Dict :=
  match dlookup "user_message" state with
  | some (.vstr msg) =>
      match RegexNameExtractor.extract msg with
      | some result =>
          some (pyUnion result
            [("extraction_method", .vstr "regex"), ("confidence", .vnum (mkRat 7 10))])
      | none => none
  | _ => none

/-- Tier 2 (lines 99-110): regex extraction then the same update block. -/
def tier2 (state : Dict) : Option Dict :=
  match extract_name_regex state with
  | none => none
  | some name_data =>
      match updateCustomer state name_data with
      | none => none
      | some s1 => some (dset s1 "current_step" (.vstr "extract_phone"))

/-- Tier 3 (lines 115-122): set the clarification response, reset
`current_step` to `extract_name`, and append exactly one failure code to
`errors` (created as `[]` when the key is absent; a non-list `errors` makes
`.append` raise, modelled as `none`). -/
def tier3 (state : Dict) : Option Dict :=
  let s1 := dset state "response" (.vstr clarification)
  let s2 := dset s1 "current_step" (.vstr "extract_name")
  let s3 := if (dlookup "errors" s2).isNone then dset s2 "errors" (.vlist []) else s2
  match dlookup "errors" s3 with
  | some (.vlist es) =>
      some (dset s3 "errors" (.vlist (es ++ [.vstr "name_extraction_failed"])))
  | _ => none

/-- `node` of extract_name.py: 3-tier name extraction.  Any exception in a
tier's body (including the state-update lines inside its `try`) falls
through to the next tier.  Besides the resulting state the model returns
how many times tier 1 and tier 2 were invoked. -/
def node (dspyResult : Option DspyName) (state : Dict) : Option (Dict × Nat × Nat) :=
  match tier1 dspyResult state with
  | some s => some (s, 1, 0)
  | none =>
      match tier2 state with
      | some s => some (s, 1, 1)
      | none =>
          match tier3 state with
          | some s => some (s, 1, 1)
          | none => none

/-- The state's `errors` field as a Python list: `[]` when the key is
absent, `none` when present but not a list. -/
def errsOf (state : Dict) : Option (List Val) :=
  match dlookup "errors" state with
  | none => some []
  | some (.vlist es) => some es
  | some _ => none

/-- The `customer` field is either falsy or a dict, so the update block
cannot raise. -/
def customerOk (state : Dict) : Bool :=
  falsy (pyGet state "customer") ||
    (match pyGet state "customer" with
     | .vdict _ => true
     | _ => false)

end extract_name

theorem tier3_char (state : Dict) (es : List Val)
    (herr : extract_name.errsOf state = some es) :
    ∃ s2, extract_name.tier3 state = some s2 ∧
      dlookup "response" s2 = some (.vstr extract_name.clarification) ∧
      dlookup "current_step" s2 = some (.vstr "extract_name") ∧
      dlookup "errors" s2 = some (.vlist (es ++ [.vstr "name_extraction_failed"])) ∧
      dlookup "should_proceed" s2 = dlookup "should_proceed" state := by
  unfold extract_name.errsOf at herr
  have hne1 : dlookup "errors"
      (dset (dset state "response" (.vstr extract_name.clarification))
        "current_step" (.vstr "extract_name")) = dlookup "errors" state := by
    rw [dlookup_dset_ne _ _ _ _ (by decide), dlookup_dset_ne _ _ _ _ (by decide)]
  cases hE : dlookup "errors" state with
  | none =>
      rw [hE] at herr
      simp only [Option.some.injEq] at herr
      subst herr
      have hcond : (dlookup "errors"
          (dset (dset state "response" (.vstr extract_name.clarification))
            "current_step" (.vstr "extract_name"))).isNone = true := by
        rw [hne1, hE]; rfl
      refine ⟨dset (dset (dset (dset state "response" (.vstr extract_name.clarification))
          "current_step" (.vstr "extract_name")) "errors" (.vlist []))
          "errors" (.vlist ([] ++ [.vstr "name_extraction_failed"])), ?_, ?_, ?_, ?_, ?_⟩
      · simp only [extract_name.tier3, hcond, if_true, dlookup_dset_self]
      · rw [dlookup_dset_ne _ _ _ _ (by decide), dlookup_dset_ne _ _ _ _ (by decide),
          dlookup_dset_ne _ _ _ _ (by decide), dlookup_dset_self]
      · rw [dlookup_dset_ne _ _ _ _ (by decide), dlookup_dset_ne _ _ _ _ (by decide),
          dlookup_dset_self]
      · rw [dlookup_dset_self]
      · rw [dlookup_dset_ne _ _ _ _ (by decide), dlookup_dset_ne _ _ _ _ (by decide),
          dlookup_dset_ne _ _ _ _ (by decide), dlookup_dset_ne _ _ _ _ (by decide)]
  | some v =>
      cases v with
      | vlist es2 =>
          rw [hE] at herr
          simp only [Option.some.injEq] at herr
          subst herr
          have hcond : (dlookup "errors"
              (dset (dset state "response" (.vstr extract_name.clarification))
                "current_step" (.vstr "extract_name"))).isNone = false := by
            rw [hne1, hE]; rfl
          have hE2 : dlookup "errors"
              (dset (dset state "response" (.vstr extract_name.clarification))
                "current_step" (.vstr "extract_name")) = some (.vlist es2) := by
            rw [hne1, hE]
          refine ⟨dset (dset (dset state "response" (.vstr extract_name.clarification))
              "current_step" (.vstr "extract_name"))
              "errors" (.vlist (es2 ++ [.vstr "name_extraction_failed"])), ?_, ?_, ?_, ?_, ?_⟩
          · simp only [extract_name.tier3, hE2, Option.isNone_some, Bool.false_eq_true,
              if_false, reduceIte]
          · rw [dlookup_dset_ne _ _ _ _ (by decide), dlookup_dset_ne _ _ _ _ (by decide),
              dlookup_dset_self]
          · rw [dlookup_dset_ne _ _ _ _ (by decide), dlookup_dset_self]
          · rw [dlookup_dset_self]
          · rw [dlookup_dset_ne _ _ _ _ (by decide), dlookup_dset_ne _ _ _ _ (by decide),
              dlookup_dset_ne _ _ _ _ (by decide)]
      | vnull => rw [hE] at herr; simp at herr
      | vbool b => rw [hE] at herr; simp at herr
      | vnum q => rw [hE] at herr; simp at herr
      | vstr s => rw [hE] at herr; simp at herr
      | vdict d => rw [hE] at herr; simp at herr

/-- C5 counterexample: all extraction tiers fail on a state whose
`should_proceed` is `True`; the node leaves `should_proceed` equal to `True`
rather than making it reflect "awaiting the same step" (per the data model,
awaiting means `should_proceed = false`), refuting the claim's
`should_proceed` clause as stated at this concrete input. -/
theorem C5_counterexample :
    extract_name.node none
        [("user_message", Val.vstr "12345"), ("should_proceed", Val.vbool true)] =
      some ([("user_message", Val.vstr "12345"), ("should_proceed", Val.vbool true),
             ("response", Val.vstr extract_name.clarification),
             ("current_step", Val.vstr "extract_name"),
             ("errors", Val.vlist [Val.vstr "name_extraction_failed"])], 1, 1) ∧
    dlookup "should_proceed"
        [("user_message", Val.vstr "12345"), ("should_proceed", Val.vbool true),
         ("response", Val.vstr extract_name.clarification),
         ("current_step", Val.vstr "extract_name"),
         ("errors", Val.vlist [Val.vstr "name_extraction_failed"])] =
      some (Val.vbool true) ∧
    Val.vbool true ≠ Val.vbool false :=
  ⟨rfl, rfl, by simp⟩

/-- C5 (amended): for every well-formed state (string `user_message`,
list-or-absent `errors`) on which tier 1 raises and tier 2 finds no match,
the node returns normally after invoking each of the two extraction tiers
exactly once, with the clarification question as `response`, `current_step`
reset to `extract_name`, exactly one terminal-failure code appended to
`errors`, and `should_proceed` left unchanged from the input state (the node
signals "awaiting the same step" through `current_step`, not by modifying
`should_proceed`). -/
theorem C5_total_fallback (state : Dict) (msg : String) (es : List Val)
    (hmsg : dlookup "user_message" state = some (.vstr msg))
    (hregex : RegexNameExtractor.extract msg = none)
    (herr : extract_name.errsOf state = some es) :
    ∃ s2, extract_name.node none state = some (s2, 1, 1) ∧
      dlookup "response" s2 = some (.vstr extract_name.clarification) ∧
      dlookup "current_step" s2 = some (.vstr "extract_name") ∧
      dlookup "errors" s2 = some (.vlist (es ++ [.vstr "name_extraction_failed"])) ∧
      dlookup "should_proceed" s2 = dlookup "should_proceed" state := by
  have htier2 : extract_name.tier2 state = none := by
    unfold extract_name.tier2 extract_name.extract_name_regex
    rw [hmsg]
    simp [hregex]
  obtain ⟨s2, h3, hresp, hstep, herr2, hsp⟩ := tier3_char state es herr
  refine ⟨s2, ?_, hresp, hstep, herr2, hsp⟩
  unfold extract_name.node
  have htier1 : extract_name.tier1 none state = none := rfl
  rw [htier1, htier2, h3]

/-- C5 witness: concrete all-tiers-fail run on a state with an existing
error list. -/
theorem C5_total_fallback_witness :
    ∃ s2, extract_name.node none
        [("user_message", Val.vstr "hello"), ("errors", Val.vlist [Val.vstr "earlier"])] =
      some (s2, 1, 1) ∧
      dlookup "response" s2 = some (.vstr extract_name.clarification) ∧
      dlookup "current_step" s2 = some (.vstr "extract_name") ∧
      dlookup "errors" s2 =
        some (.vlist ([Val.vstr "earlier"] ++ [.vstr "name_extraction_failed"])) ∧
      dlookup "should_proceed" s2 =
        dlookup "should_proceed"
          [("user_message", Val.vstr "hello"), ("errors", Val.vlist [Val.vstr "earlier"])] :=
  C5_total_fallback _ "hello" [Val.vstr "earlier"] rfl rfl rfl

theorem splitFullName_shape (full : List Char) :
    splitFullName full = [] ∨
    ∃ f l, splitFullName full = [("first_name", Val.vstr f), ("last_name", Val.vstr l)] := by
  unfold splitFullName
  cases splitWsChars full with
  | nil => exact Or.inl rfl
  | cons w ws =>
      cases ws with
      | nil => exact Or.inr ⟨String.mk w, "", rfl⟩
      | cons w2 ws2 => exact Or.inr ⟨String.mk w, _, rfl⟩

theorem C6_aux (state : Dict) (msg : String) (r nd : Dict)
    (hmsg : dlookup "user_message" state = some (.vstr msg))
    (hregex : RegexNameExtractor.extract msg = some r)
    (hcust : extract_name.customerOk state = true)
    (hnd : pyUnion r [("extraction_method", .vstr "regex"),
      ("confidence", .vnum (mkRat 7 10))] = nd)
    (hnodup : (nd.map Prod.fst).Nodup)
    (hem : dlookup "extraction_method" nd = some (.vstr "regex"))
    (hcf : dlookup "confidence" nd = some (.vnum (mkRat 7 10))) :
    ∃ s2 cd2, extract_name.node none state = some (s2, 1, 1) ∧
      dlookup "customer" s2 = some (.vdict cd2) ∧
      dlookup "extraction_method" cd2 = some (.vstr "regex") ∧
      dlookup "confidence" cd2 = some (.vnum (mkRat 7 10)) := by
  have hreg2 : extract_name.extract_name_regex state = some nd := by
    unfold extract_name.extract_name_regex
    simp only [hmsg, hregex, hnd]
  by_cases hf : falsy (pyGet state "customer") = true
  · have hupd : extract_name.updateCustomer state nd =
        some (dset state "customer" (.vdict nd)) := by
      unfold extract_name.updateCustomer
      rw [if_pos hf]
    have htier2 : extract_name.tier2 state =
        some (dset (dset state "customer" (.vdict nd))
          "current_step" (.vstr "extract_phone")) := by
      unfold extract_name.tier2
      simp only [hreg2, hupd]
    refine ⟨dset (dset state "customer" (.vdict nd)) "current_step" (.vstr "extract_phone"),
      nd, ?_, ?_, hem, hcf⟩
    · unfold extract_name.node
      rw [show extract_name.tier1 none state = none from rfl, htier2]
    · rw [dlookup_dset_ne _ _ _ _ (by decide), dlookup_dset_self]
  · have hf2 : falsy (pyGet state "customer") = false := by
      revert hf; cases falsy (pyGet state "customer") <;> simp
    have hcust2 : (match pyGet state "customer" with
        | Val.vdict _ => true
        | _ => false) = true := by
      unfold extract_name.customerOk at hcust
      rw [hf2] at hcust
      simpa using hcust
    cases hv : pyGet state "customer" with
    | vdict cd =>
        have hupd : extract_name.updateCustomer state nd =
            some (dset state "customer" (.vdict (pyUnion cd nd))) := by
          rw [hv] at hf2
          unfold extract_name.updateCustomer
          simp only [hv, hf2, Bool.false_eq_true, if_false, reduceIte]
        have htier2 : extract_name.tier2 state =
            some (dset (dset state "customer" (.vdict (pyUnion cd nd)))
              "current_step" (.vstr "extract_phone")) := by
          unfold extract_name.tier2
          simp only [hreg2, hupd]
        refine ⟨dset (dset state "customer" (.vdict (pyUnion cd nd)))
            "current_step" (.vstr "extract_phone"), pyUnion cd nd, ?_, ?_, ?_, ?_⟩
        · unfold extract_name.node
          rw [show extract_name.tier1 none state = none from rfl, htier2]
        · rw [dlookup_dset_ne _ _ _ _ (by decide), dlookup_dset_self]
        · exact pyUnion_lookup_right nd cd _ _ hnodup hem
        · exact pyUnion_lookup_right nd cd _ _ hnodup hcf
    | vnull => rw [hv] at hcust2; simp at hcust2
    | vbool b => rw [hv] at hcust2; simp at hcust2
    | vnum q => rw [hv] at hcust2; simp at hcust2
    | vstr s => rw [hv] at hcust2; simp at hcust2
    | vlist l => rw [hv] at hcust2; simp at hcust2

/-- C6: when the primary (DSPy) tier raises and the regex tier succeeds on a
well-formed state, the node invokes the primary tier exactly once and never
re-invokes it (the invocation counters are exactly (1, 1)), and the
resulting customer data carries `extraction_method = "regex"` with the regex
tier's default confidence 0.70. -/
theorem C6_tier_fallback (state : Dict) (msg : String) (r : Dict)
    (hmsg : dlookup "user_message" state = some (.vstr msg))
    (hregex : RegexNameExtractor.extract msg = some r)
    (hcust : extract_name.customerOk state = true) :
    ∃ s2 cd2, extract_name.node none state = some (s2, 1, 1) ∧
      dlookup "customer" s2 = some (.vdict cd2) ∧
      dlookup "extraction_method" cd2 = some (.vstr "regex") ∧
      dlookup "confidence" cd2 = some (.vnum (mkRat 7 10)) := by
  obtain ⟨full, hcand⟩ := extract_some_candidate msg r hregex
  obtain ⟨hr, hstop, hdig⟩ := checkCandidate_some full r hcand
  rcases splitFullName_shape full with h0 | ⟨f, l, h2⟩
  · have hr0 : r = [] := hr.trans h0
    subst hr0
    exact C6_aux state msg []
      [("extraction_method", .vstr "regex"), ("confidence", .vnum (mkRat 7 10))]
      hmsg hregex hcust rfl (by decide) rfl rfl
  · have hr2 : r = [("first_name", Val.vstr f), ("last_name", Val.vstr l)] := hr.trans h2
    subst hr2
    exact C6_aux state msg _
      [("first_name", Val.vstr f), ("last_name", Val.vstr l),
       ("extraction_method", .vstr "regex"), ("confidence", .vnum (mkRat 7 10))]
      hmsg hregex hcust rfl (by simp) rfl rfl

/-- C6 witness: a concrete run with the DSPy tier raising and the regex tier
extracting "Ravi Kumar". -/
theorem C6_tier_fallback_witness :
    ∃ s2 cd2, extract_name.node none
        [("user_message", Val.vstr "My name is Ravi Kumar")] = some (s2, 1, 1) ∧
      dlookup "customer" s2 = some (.vdict cd2) ∧
      dlookup "extraction_method" cd2 = some (.vstr "regex") ∧
      dlookup "confidence" cd2 = some (.vnum (mkRat 7 10)) :=
  C6_tier_fallback _ "My name is Ravi Kumar"
    [("first_name", Val.vstr "Ravi"), ("last_name", Val.vstr "Kumar")] rfl rfl rfl

/-! ### Vehicle-selection extraction (workflows/existing_user_booking.py) -/

/-- `\w` (ASCII word character). -/
def isWordCh (c : Char) : Bool := isLetterCh c || isDigitCh c || c = '_'

/-- `re.search` for `\b(\d+)\b`: scan positions left to right for a maximal
digit run preceded by start-or-non-word and followed by end-or-non-word;
`prev` records whether the previous character is a word character. -/
def searchNum : Bool → List Char → Option (List Char)
  | _, [] => none
  | prev, c :: cs =>
      if !prev && isDigitCh c then
        match cs.dropWhile isDigitCh with
        | [] => some (c :: cs.takeWhile isDigitCh)
        | r :: _ =>
            if isWordCh r then searchNum (isWordCh c) cs
            else some (c :: cs.takeWhile isDigitCh)
      else searchNum (isWordCh c) cs

/-- Python `int` of a digit string. -/
def digitsToNat (ds : List Char) : Nat :=
  ds.foldl (fun a c => a * 10 + (c.toNat - 48)) 0

/-- `int(match.group(1))` for the first `\b(\d+)\b` match of the message. -/
def firstInt (s : String) : Option Nat :=
  (searchNum false s.toList).map digitsToNat

/-- Python `d.get(k)` on a vehicle dict (`None` when missing). -/
def pyDictGet (d : Dict) (k : String) : Val := (dlookup k d).getD .vnull

/-- The `state["vehicle"]` dict built on a successful selection (lines
335-341 of existing_user_booking.py). -/
def mkVehicleDict (v : Dict) : Dict :=
  [("vehicle_id", pyDictGet v "name"),
   ("vehicle_make", pyDictGet v "vehicle_make"),
   ("vehicle_model", pyDictGet v "vehicle_model"),
   ("vehicle_number", pyDictGet v "vehicle_number"),
   ("vehicle_type", pyDictGet v "vehicle_type")]

namespace existing_user_booking

/-- `extract_vehicle_selection_node` of workflows/existing_user_booking.py:
parse the first integer of the user message as a 1-based index into
`vehicle_options`; out-of-range or missing numbers record a selection error
instead of selecting.  `none` models an uncaught exception, possible only on
ill-typed states (non-string message, non-list options, non-dict option). -/
def extract_vehicle_selection_node (state : Dict) : Option Dict :=
  let user_message := (dlookup "user_message" state).getD (.vstr "")
  let vehicle_options := (dlookup "vehicle_options" state).getD (.vlist [])
  if falsy vehicle_options then some state
  else
    match user_message with
    | .vstr msg =>
        match firstInt msg with
        | some n =>
            match vehicle_options with
            | .vlist opts =>
                let index : Int := (n : Int) - 1
                if 0 ≤ index ∧ index < (opts.length : Int) then
                  match opts.get? index.toNat with
                  | some (.vdict v) =>
                      some (dset (dset state "vehicle" (.vdict (mkVehicleDict v)))
                        "vehicle_selected" (.vbool true))
                  | _ => none
                else
                  some (dset (dset state "selection_error" (.vstr "Invalid vehicle number"))
                    "vehicle_selected" (.vbool false))
            | _ => none
        | none =>
            some (dset (dset state "selection_error"
                (.vstr "Please reply with a number (1, 2, 3, etc.)"))
              "vehicle_selected" (.vbool false))
    | _ => none

end existing_user_booking

/-- C9: on any state with a string message and a non-empty options list, the
vehicle-selection node never indexes out of bounds: with no integer in the
message, or a first integer outside 1..len(options), it sets
`vehicle_selected` to false, records a `selection_error`, and leaves the
`vehicle` field untouched; it writes `vehicle` (and sets `vehicle_selected`)
only when the first integer selects an element actually present in
`vehicle_options`, and then with exactly that element's data. -/
theorem C9_vehicle_selection_safe (state : Dict) (msg : String) (opts : List Val)
    (hmsg : dlookup "user_message" state = some (.vstr msg))
    (hopts : dlookup "vehicle_options" state = some (.vlist opts))
    (hne : opts ≠ []) :
    (firstInt msg = none →
      ∃ s2, existing_user_booking.extract_vehicle_selection_node state = some s2 ∧
        dlookup "vehicle_selected" s2 = some (.vbool false) ∧
        dlookup "selection_error" s2 =
          some (.vstr "Please reply with a number (1, 2, 3, etc.)") ∧
        dlookup "vehicle" s2 = dlookup "vehicle" state) ∧
    (∀ n, firstInt msg = some n → (n < 1 ∨ opts.length < n) →
      ∃ s2, existing_user_booking.extract_vehicle_selection_node state = some s2 ∧
        dlookup "vehicle_selected" s2 = some (.vbool false) ∧
        dlookup "selection_error" s2 = some (.vstr "Invalid vehicle number") ∧
        dlookup "vehicle" s2 = dlookup "vehicle" state) ∧
    (∀ n d, firstInt msg = some n → 1 ≤ n → n ≤ opts.length →
      opts.get? (n - 1) = some (.vdict d) →
      Val.vdict d ∈ opts ∧
      ∃ s2, existing_user_booking.extract_vehicle_selection_node state = some s2 ∧
        dlookup "vehicle" s2 = some (.vdict (mkVehicleDict d)) ∧
        dlookup "vehicle_selected" s2 = some (.vbool true)) := by
  have hfalsy : falsy (.vlist opts) = false := by
    cases opts with
    | nil => exact absurd rfl hne
    | cons v vs => rfl
  refine ⟨?_, ?_, ?_⟩
  · intro hint
    refine ⟨dset (dset state "selection_error"
        (.vstr "Please reply with a number (1, 2, 3, etc.)"))
        "vehicle_selected" (.vbool false), ?_, ?_, ?_, ?_⟩
    · simp only [existing_user_booking.extract_vehicle_selection_node, hmsg, hopts,
        Option.getD_some, hfalsy, Bool.false_eq_true, if_false, reduceIte, hint]
    · rw [dlookup_dset_self]
    · rw [dlookup_dset_ne _ _ _ _ (by decide), dlookup_dset_self]
    · rw [dlookup_dset_ne _ _ _ _ (by decide), dlookup_dset_ne _ _ _ _ (by decide)]
  · intro n hint hout
    have hcond : ¬ (0 ≤ (n : Int) - 1 ∧ (n : Int) - 1 < (opts.length : Int)) := by
      rcases hout with h | h
      · intro hc; omega
      · intro hc; omega
    refine ⟨dset (dset state "selection_error" (.vstr "Invalid vehicle number"))
        "vehicle_selected" (.vbool false), ?_, ?_, ?_, ?_⟩
    · simp only [existing_user_booking.extract_vehicle_selection_node, hmsg, hopts,
        Option.getD_some, hfalsy, Bool.false_eq_true, if_false, reduceIte, hint]
      rw [if_neg hcond]
    · rw [dlookup_dset_self]
    · rw [dlookup_dset_ne _ _ _ _ (by decide), dlookup_dset_self]
    · rw [dlookup_dset_ne _ _ _ _ (by decide), dlookup_dset_ne _ _ _ _ (by decide)]
  · intro n d hint h1 h2 hget
    have hcond : 0 ≤ (n : Int) - 1 ∧ (n : Int) - 1 < (opts.length : Int) := by omega
    have htonat : ((n : Int) - 1).toNat = n - 1 := by omega
    refine ⟨List.get?_mem hget, dset (dset state "vehicle" (.vdict (mkVehicleDict d)))
        "vehicle_selected" (.vbool true), ?_, ?_, ?_⟩
    · simp only [existing_user_booking.extract_vehicle_selection_node, hmsg, hopts,
        Option.getD_some, hfalsy, Bool.false_eq_true, if_false, reduceIte, hint]
      rw [if_pos hcond, htonat, hget]
    · rw [dlookup_dset_ne _ _ _ _ (by decide), dlookup_dset_self]
    · rw [dlookup_dset_self]

/-- C9 witness: message "2" selects the second of two vehicles; message
"hello there" selects nothing and records the error. -/
theorem C9_vehicle_selection_safe_witness :
    (Val.vdict [("name", Val.vstr "V2"), ("vehicle_make", Val.vstr "TATA")] ∈
      ([Val.vdict [("name", Val.vstr "V1")],
        Val.vdict [("name", Val.vstr "V2"), ("vehicle_make", Val.vstr "TATA")]] : List Val) ∧
    ∃ s2, existing_user_booking.extract_vehicle_selection_node
        [("user_message", Val.vstr "2"),
         ("vehicle_options", Val.vlist
           [Val.vdict [("name", Val.vstr "V1")],
            Val.vdict [("name", Val.vstr "V2"), ("vehicle_make", Val.vstr "TATA")]])] =
        some s2 ∧
      dlookup "vehicle" s2 = some (.vdict (mkVehicleDict
        [("name", Val.vstr "V2"), ("vehicle_make", Val.vstr "TATA")])) ∧
      dlookup "vehicle_selected" s2 = some (.vbool true)) :=
  (C9_vehicle_selection_safe
      [("user_message", Val.vstr "2"),
       ("vehicle_options", Val.vlist
         [Val.vdict [("name", Val.vstr "V1")],
          Val.vdict [("name", Val.vstr "V2"), ("vehicle_make", Val.vstr "TATA")]])]
      "2"
      [Val.vdict [("name", Val.vstr "V1")],
       Val.vdict [("name", Val.vstr "V2"), ("vehicle_make", Val.vstr "TATA")]]
      rfl rfl (List.cons_ne_nil _ _)).2.2
    2 [("name", Val.vstr "V2"), ("vehicle_make", Val.vstr "TATA")]
    rfl (by decide) (by decide) rfl
